import Mathlib

/-!
Verification of the shark-attack data-cleaning pipeline
(Project_2-Shark_Attacks-IronHack).

The repository drives a single-pass ETL over one spreadsheet:
download, load, rename columns, clean five columns (Fatal, Time,
Species, Source, PDF), save.  The driving notebook
(src/.ipynb_checkpoints/main-checkpoint.ipynb) is the authority for the
stage order and the file paths; the module functions.py that defines the
individual stage functions is not part of the sources, so each stage
body below is modelled from the specification (its doc comment says so
and cites the spec section).
-/

/-- A cell of the incident table: a string value, or missing (NaN). -/
abbrev Cell := Option String

/-- The Incident Table: a header row of column names and an ordered
sequence of data rows, each row a list of cells aligned positionally
with the header. -/
structure Table where
  header : List String
  rows : List (List Cell)
deriving Repr, DecidableEq

/-- A table is rectangular when every data row has exactly as many cells
as the header has columns (a data-frame guarantees this shape). -/
def Table.rect (t : Table) : Bool :=
  t.rows.all (fun r => r.length == t.header.length)

/-- Whitespace test on characters. -/
def isSpaceChar (c : Char) : Bool := c = ' ' || c = '\t' || c = '\n' || c = '\r'

/-- Strip leading and trailing whitespace from a character list. -/
def trimChars (l : List Char) : List Char :=
  ((l.dropWhile isSpaceChar).reverse.dropWhile isSpaceChar).reverse

/-- Lower-case a single ASCII character. -/
def lowerChar (c : Char) : Char :=
  if c.isUpper then Char.ofNat (c.toNat + 32) else c

/-- First index of a column name in a header, if present. -/
def colIdx : List String → String → Option Nat
  | [], _ => none
  | h :: hs, name => if h = name then some 0 else (colIdx hs name).map (· + 1)

/-- Rewrite one data row: apply f to each cell lying under a header cell
equal to target, leave every other cell unchanged. -/
def cleanRow (target : String) (f : Cell → Cell) : List String → List Cell → List Cell
  | _, [] => []
  | [], cs => cs
  | h :: hs, c :: cs =>
      (if h = target then f c else c) :: cleanRow target f hs cs

/-- Rewrite the values of the column named target by f, keeping the
header and every other column unchanged. -/
def mapColumn (t : Table) (target : String) (f : Cell → Cell) : Table :=
  ⟨t.header, t.rows.map (cleanRow target f t.header)⟩

/-- The list of cells of the column named name (first matching header
position), or none when the column is absent.  A row too short to reach
the column contributes a missing cell. -/
def getCol (t : Table) (name : String) : Option (List Cell) :=
  (colIdx t.header name).map (fun i => t.rows.map (fun r => r.getD i none))

/-- The cell of row i under the column named name. -/
def getCell (t : Table) (i : Nat) (name : String) : Option Cell :=
  (colIdx t.header name).bind (fun j => (t.rows.get? i).map (fun r => r.getD j none))

/-- Modelled from the spec: functions.py is not among the sources.
Section 4.3 fixes a hard-coded lookup from original to canonical column
names; the only pair the spec names is the example "Sex" to "Gender"
(section 8). -/
def renameLookup : List (String × String) := [("Sex", "Gender")]

/-- Modelled from the spec (section 4.3): a header present in the lookup
is replaced by its canonical name, a header not present is passed
through unchanged. -/
def renameHeader (h : String) : String :=
  match renameLookup.find? (fun p => p.1 = h) with
  | some p => p.2
  | none => h

/-- Modelled from the spec (section 4.3): fn.rename_columns maps every
header through the fixed lookup and leaves the data rows untouched.  No
validation is performed. -/
def rename_columns (t : Table) : Table :=
  ⟨t.header.map renameHeader, t.rows⟩

/-- Modelled from the spec (section 4.4): a fatality entry counts as
affirmative when, after stripping stray whitespace and normalizing the
casing, it reads "y" (covering "Y", "y", " Y "). -/
def affirmativeFatal (s : String) : Bool :=
  (trimChars s.data).map lowerChar == ['y']

/-- Modelled from the spec (section 4.4): an affirmative cell becomes the
category "Y"; every other cell, blanks and missing cells included,
becomes the negative or unknown category "N". -/
def cleanFatalCell (c : Cell) : Cell :=
  match c with
  | none => some "N"
  | some s => if affirmativeFatal s then some "Y" else some "N"

/-- Modelled from the spec (section 4.4): fn.clean_fatal_column coerces
the Fatal column to a two-valued category. -/
def clean_fatal_column (t : Table) : Table :=
  mapColumn t "Fatal" cleanFatalCell

/-- Modelled from the spec (section 4.5): recognize a time of day written
as two digits, a separator h or colon, and two digits (for example
"14h00" or "09:30"), yielding hour and minute values. -/
def parseTimeChars : List Char → Option (Nat × Nat)
  | [h1, h2, sep, m1, m2] =>
      if (sep = 'h' || sep = ':') && h1.isDigit && h2.isDigit && m1.isDigit && m2.isDigit then
        let hv := 10 * (h1.toNat - 48) + (h2.toNat - 48)
        let mv := 10 * (m1.toNat - 48) + (m2.toNat - 48)
        if hv < 24 && mv < 60 then some (hv, mv) else none
      else none
  | _ => none

/-- The character of a single decimal digit. -/
def digitChar (n : Nat) : Char := Char.ofNat (48 + n)

/-- Canonical HH:MM rendering of an hour and minute pair. -/
def formatTime (h m : Nat) : String :=
  String.mk [digitChar (h / 10), digitChar (h % 10), ':', digitChar (m / 10), digitChar (m % 10)]

/-- Modelled from the spec (section 4.5): a parseable time cell becomes
its canonical HH:MM string; an unparseable or missing cell becomes the
sentinel "unknown".  The function is total, so no input can abort the
stage. -/
def cleanTimeCell (c : Cell) : Cell :=
  match c with
  | none => some "unknown"
  | some s =>
      match parseTimeChars (trimChars s.data) with
      | some (h, m) => some (formatTime h m)
      | none => some "unknown"

/-- Modelled from the spec (section 4.5): fn.clean_time_column normalizes
the Time column, falling back to the sentinel per cell. -/
def clean_time_column (t : Table) : Table :=
  mapColumn t "Time" cleanTimeCell

/-- Modelled from the spec (section 4.6): species text is trimmed and
lower-cased; an empty or missing entry becomes the sentinel "unknown". -/
def cleanSpeciesCell (c : Cell) : Cell :=
  match c with
  | none => some "unknown"
  | some s =>
      let t := trimChars s.data
      if t.isEmpty then some "unknown" else some (String.mk (t.map lowerChar))

/-- Modelled from the spec (section 4.6): fn.clean_species_column
normalizes the Species column. -/
def clean_species_column (t : Table) : Table :=
  mapColumn t "Species" cleanSpeciesCell

/-- Collapse every run of consecutive whitespace characters to the
single character that heads the run. -/
def squeeze : List Char → List Char
  | [] => []
  | [c] => [c]
  | a :: b :: rest =>
      if isSpaceChar a && isSpaceChar b then squeeze (b :: rest)
      else a :: squeeze (b :: rest)

/-- Modelled from the spec (section 4.7): citation text is trimmed and
its internal whitespace collapsed to single spaces; a missing entry is
left as an explicit empty marker. -/
def cleanSourceCell (c : Cell) : Cell :=
  match c with
  | none => some ""
  | some s =>
      some (String.mk ((squeeze (trimChars s.data)).map
        (fun ch => if isSpaceChar ch then ' ' else ch)))

/-- Modelled from the spec (section 4.7): fn.clean_source_column
normalizes the Source column. -/
def clean_source_column (t : Table) : Table :=
  mapColumn t "Source" cleanSourceCell

/-- Modelled from the spec (section 4.8): a PDF reference is trimmed to a
consistent reference string; a missing entry is left as an explicit
empty marker. -/
def cleanPdfCell (c : Cell) : Cell :=
  match c with
  | none => some ""
  | some s => some (String.mk (trimChars s.data))

/-- Modelled from the spec (section 4.8): fn.clean_pdf_column normalizes
the PDF column. -/
def clean_pdf_column (t : Table) : Table :=
  mapColumn t "PDF" cleanPdfCell

/-- A spreadsheet file on disk: a header row followed by data rows. -/
structure XFile where
  headerRow : List String
  dataRows : List (List Cell)
deriving Repr, DecidableEq

/-- The filesystem: an association list from paths to file contents, the
most recent write first. -/
abbrev FS := List (String × XFile)

/-- Write a file, replacing any existing file at that path. -/
def fsWrite (fs : FS) (p : String) (f : XFile) : FS := (p, f) :: fs

/-- Read the current content of the file at a path, if any. -/
def fsRead (fs : FS) (p : String) : Option XFile :=
  (fs.find? (fun q => q.1 = p)).map Prod.snd

/-- Deserialize a spreadsheet file into an incident table, columns taken
verbatim from the header row. -/
def xfileToTable (f : XFile) : Table := ⟨f.headerRow, f.dataRows⟩

/-- Serialize an incident table to a spreadsheet file, including the
header row with the canonical column names. -/
def tableToXFile (t : Table) : XFile := ⟨t.header, t.rows⟩

/-- Modelled from the spec (section 4.1): fn.download_excel retrieves the
remote spreadsheet at url and writes its bytes verbatim to the
destination path, replacing any existing file there.  The remote web is
modelled as a mapping from URL to file content. -/
def download_excel (remote : String → XFile) (url : String) (dest : String) (fs : FS) : FS :=
  fsWrite fs dest (remote url)

/-- Modelled from the spec (section 4.2): fn.load_excel reads the local
spreadsheet at path into an incident table; a missing file is a fatal
error, modelled as none. -/
def load_excel (fs : FS) (path : String) : Option Table :=
  (fsRead fs path).map xfileToTable

/-- Modelled from the spec (section 4.9): fn.save_excel serializes the
table to a spreadsheet file at the destination path. -/
def save_excel (fs : FS) (t : Table) (path : String) : FS :=
  fsWrite fs path (tableToXFile t)

/-- The hard-coded source URL of cell-0 of the notebook. -/
def sourceURL : String := "https://www.sharkattackfile.net/spreadsheets/GSAF5.xls"

/-- The destination path the fetcher writes to (notebook, step 1). -/
def downloadDest : String := "GSAF5.xls"

/-- The local path the loader reads from (notebook, step 2). -/
def loadPath : String := "GSAF5.xls"

/-- The path the writer saves the cleaned table to (notebook, step 9). -/
def savePath : String := "Cleaned_GSAF5.xlsx"

/-- The pipeline of cell-0 of the notebook: download, load, rename
columns, clean Fatal, clean Time, clean Species, clean Source, clean
PDF, save — each step consuming the table bound by the previous step.
Returns the final filesystem and the fully cleaned table (none when the
load failed, which the notebook would surface as a fatal error). -/
def run_pipeline (remote : String → XFile) (fs0 : FS) : FS × Option Table :=
  let fs1 := download_excel remote sourceURL downloadDest fs0
  match load_excel fs1 loadPath with
  | none => (fs1, none)
  | some df0 =>
      let df1 := rename_columns df0
      let df2 := clean_fatal_column df1
      let df3 := clean_time_column df2
      let df4 := clean_species_column df3
      let df5 := clean_source_column df4
      let df6 := clean_pdf_column df5
      (save_excel fs1 df6 savePath, some df6)

/-- The composition of the seven in-memory stages in notebook order,
applied to the freshly loaded table. -/
def cleanStages (t : Table) : Table :=
  clean_pdf_column (clean_source_column (clean_species_column
    (clean_time_column (clean_fatal_column (rename_columns t)))))

/-!
Supporting lemmas about the table operations.
-/

theorem cleanRow_length (target : String) (f : Cell → Cell) :
    ∀ (hs : List String) (cs : List Cell), (cleanRow target f hs cs).length = cs.length := by
  intro hs
  induction hs with
  | nil => intro cs; cases cs <;> simp [cleanRow]
  | cons h hs ih =>
      intro cs
      cases cs with
      | nil => simp [cleanRow]
      | cons c cs => simp [cleanRow, ih]

theorem colIdx_lt_length {hs : List String} {name : String} {i : Nat}
    (h : colIdx hs name = some i) : i < hs.length := by
  induction hs generalizing i with
  | nil => simp [colIdx] at h
  | cons a hs ih =>
      by_cases ha : a = name
      · rw [colIdx, if_pos ha] at h
        injection h with h
        subst h
        simp
      · simp [colIdx, ha] at h
        obtain ⟨j, hj, rfl⟩ := h
        have := ih hj
        simpa using Nat.succ_lt_succ this

theorem colIdx_get {hs : List String} {name : String} {i : Nat}
    (h : colIdx hs name = some i) : hs.get? i = some name := by
  induction hs generalizing i with
  | nil => simp [colIdx] at h
  | cons a hs ih =>
      by_cases ha : a = name
      · simp [colIdx, ha] at h
        subst h
        simp [ha]
      · simp [colIdx, ha] at h
        obtain ⟨j, hj, rfl⟩ := h
        simpa using ih hj

theorem cleanRow_getD_ne (target : String) (f : Cell → Cell) :
    ∀ (hs : List String) (cs : List Cell) (i : Nat), hs.get? i ≠ some target →
      (cleanRow target f hs cs).getD i none = cs.getD i none := by
  intro hs
  induction hs with
  | nil =>
      intro cs i _
      cases cs <;> simp [cleanRow]
  | cons h hs ih =>
      intro cs i hne
      cases cs with
      | nil => simp [cleanRow]
      | cons c cs =>
          cases i with
          | zero =>
              have : h ≠ target := by
                intro hh; exact hne (by simp [hh])
              simp [cleanRow, this]
          | succ j =>
              have hj : hs.get? j ≠ some target := by simpa using hne
              simp only [cleanRow, List.getD_cons_succ]
              exact ih cs j hj

theorem cleanRow_getD_eq (target : String) (f : Cell → Cell) :
    ∀ (hs : List String) (cs : List Cell) (i : Nat), colIdx hs target = some i →
      i < cs.length → (cleanRow target f hs cs).getD i none = f (cs.getD i none) := by
  intro hs
  induction hs with
  | nil => intro cs i h; simp [colIdx] at h
  | cons h hs ih =>
      intro cs i hidx hlen
      by_cases hh : h = target
      · simp [colIdx, hh] at hidx
        subst hidx
        cases cs with
        | nil => simp at hlen
        | cons c cs => simp [cleanRow, hh]
      · simp [colIdx, hh] at hidx
        obtain ⟨j, hj, rfl⟩ := hidx
        cases cs with
        | nil => simp at hlen
        | cons c cs =>
            simp only [cleanRow, List.getD_cons_succ]
            exact ih cs j hj (by simpa using hlen)

theorem rect_spec {t : Table} (h : t.rect = true) :
    ∀ r ∈ t.rows, r.length = t.header.length := by
  intro r hr
  have := List.all_eq_true.mp h r hr
  exact beq_iff_eq.mp this

theorem getCol_mapColumn_ne (t : Table) (target : String) (f : Cell → Cell)
    (name : String) (hne : name ≠ target) :
    getCol (mapColumn t target f) name = getCol t name := by
  unfold getCol mapColumn
  cases hidx : colIdx t.header name with
  | none => simp
  | some i =>
      simp only [Option.map_some']
      have hget : t.header.get? i = some name := colIdx_get hidx
      have hne2 : t.header.get? i ≠ some target := by
        rw [hget]; intro hc; exact hne (by injection hc)
      have : ∀ r ∈ t.rows, (cleanRow target f t.header r).getD i none = r.getD i none :=
        fun r _ => cleanRow_getD_ne target f t.header r i hne2
      simp only [List.map_map]
      rw [List.map_congr_left (fun r hr => by
        simp only [Function.comp_apply]
        exact this r hr)]

theorem getCol_mapColumn_eq (t : Table) (target : String) (f : Cell → Cell)
    (hrect : t.rect = true) :
    getCol (mapColumn t target f) target = (getCol t target).map (List.map f) := by
  unfold getCol mapColumn
  cases hidx : colIdx t.header target with
  | none => simp
  | some i =>
      simp only [Option.map_some']
      have : ∀ r ∈ t.rows, (cleanRow target f t.header r).getD i none = f (r.getD i none) := by
        intro r hr
        have hlen : i < r.length := by
          rw [rect_spec hrect r hr]
          exact colIdx_lt_length hidx
        exact cleanRow_getD_eq target f t.header r i hidx hlen
      simp only [List.map_map]
      rw [List.map_congr_left (fun r hr => by
        simp only [Function.comp_apply]
        exact this r hr)]
      simp [Function.comp]

theorem getCell_mapColumn_eq (t : Table) (target : String) (f : Cell → Cell)
    (i : Nat) (hrect : t.rect = true) :
    getCell (mapColumn t target f) i target = (getCell t i target).map f := by
  unfold getCell mapColumn
  cases hidx : colIdx t.header target with
  | none => simp
  | some j =>
      simp only [Option.some_bind]
      cases hrow : t.rows.get? i with
      | none =>
          have hmap : (t.rows.map (cleanRow target f t.header)).get? i = none := by
            simp only [List.get?_map, hrow, Option.map_none']
          rw [hmap]
          rfl
      | some r =>
          have hmap : (t.rows.map (cleanRow target f t.header)).get? i =
              some (cleanRow target f t.header r) := by
            simp only [List.get?_map, hrow, Option.map_some']
          have hmem : r ∈ t.rows := List.get?_mem hrow
          have hlen : j < r.length := by
            rw [rect_spec hrect r hmem]
            exact colIdx_lt_length hidx
          simp only [hmap, hrow, Option.map_some']
          rw [cleanRow_getD_eq target f t.header r j hidx hlen]

/-!
Concrete tables used to witness the hypothesized theorems.
-/

/-- A small concrete incident table with all five cleaned columns. -/
def sampleT : Table :=
  ⟨["Date", "Gender", "Fatal", "Time", "Species", "Source", "PDF"],
   [[some "2021-01-01", some "M", some "y", some "14h00", some " White shark ", some " A. B. ", some "x.pdf"],
    [some "2021-01-02", some "F", none, some "afternoon", none, none, none],
    [some "2021-01-03", some "M", some "N", some "09:30", some "", some "c", some " d.pdf "]]⟩

/-- A second concrete incident table with a Fatal column. -/
def sampleT2 : Table :=
  ⟨["Fatal", "Time"],
   [[some "N", none],
    [some "y", some "12h00"]]⟩

/-- A concrete table whose header holds the original name Sex. -/
def sampleSexT : Table := ⟨["Sex", "Age"], []⟩

/-- A concrete table whose header holds neither Sex nor Gender. -/
def sampleNoSexT : Table := ⟨["Age"], []⟩

/-!
The claims.
-/

/-- C1: For the fatality cleaner (clean_fatal_column), every input cell
value in the set of "Y", "y" and " Y " is mapped to the affirmative
category "Y", and every input value not recognized as affirmative,
blank and missing cells included, is mapped to the negative or unknown
category "N" rather than left missing. -/
theorem C1_fatal_mapping :
    cleanFatalCell (some "Y") = some "Y" ∧
    cleanFatalCell (some "y") = some "Y" ∧
    cleanFatalCell (some " Y ") = some "Y" ∧
    cleanFatalCell none = some "N" ∧
    cleanFatalCell (some "") = some "N" ∧
    (∀ s : String, affirmativeFatal s = false → cleanFatalCell (some s) = some "N") ∧
    (∀ t : Table, t.rect = true →
      getCol (clean_fatal_column t) "Fatal" =
        (getCol t "Fatal").map (List.map cleanFatalCell)) :=
  ⟨by decide, by decide, by decide, rfl, by decide,
   fun s h => by simp [cleanFatalCell, h],
   fun t ht => getCol_mapColumn_eq t "Fatal" cleanFatalCell ht⟩

/-- Witness for C1 at concrete inputs. -/
theorem C1_fatal_mapping_witness :
    (affirmativeFatal "UNKNOWN" = false ∧ cleanFatalCell (some "UNKNOWN") = some "N") ∧
    (sampleT.rect = true ∧
      getCol (clean_fatal_column sampleT) "Fatal" =
        (getCol sampleT "Fatal").map (List.map cleanFatalCell)) :=
  ⟨⟨by decide, C1_fatal_mapping.2.2.2.2.2.1 "UNKNOWN" (by decide)⟩,
   ⟨by decide, C1_fatal_mapping.2.2.2.2.2.2 sampleT (by decide)⟩⟩

/-- C2: each of the five cleaning stages returns a table with exactly the
same number of rows as its input, and row i of the output is obtained
from row i of the input alone (no rows dropped, added, or reordered). -/
theorem C2_rows_preserved (t : Table) :
    ((clean_fatal_column t).rows.length = t.rows.length ∧
      ∀ i, (clean_fatal_column t).rows.get? i =
        (t.rows.get? i).map (cleanRow "Fatal" cleanFatalCell t.header)) ∧
    ((clean_time_column t).rows.length = t.rows.length ∧
      ∀ i, (clean_time_column t).rows.get? i =
        (t.rows.get? i).map (cleanRow "Time" cleanTimeCell t.header)) ∧
    ((clean_species_column t).rows.length = t.rows.length ∧
      ∀ i, (clean_species_column t).rows.get? i =
        (t.rows.get? i).map (cleanRow "Species" cleanSpeciesCell t.header)) ∧
    ((clean_source_column t).rows.length = t.rows.length ∧
      ∀ i, (clean_source_column t).rows.get? i =
        (t.rows.get? i).map (cleanRow "Source" cleanSourceCell t.header)) ∧
    ((clean_pdf_column t).rows.length = t.rows.length ∧
      ∀ i, (clean_pdf_column t).rows.get? i =
        (t.rows.get? i).map (cleanRow "PDF" cleanPdfCell t.header)) := by
  refine ⟨⟨?_, ?_⟩, ⟨?_, ?_⟩, ⟨?_, ?_⟩, ⟨?_, ?_⟩, ⟨?_, ?_⟩⟩ <;>
    simp [clean_fatal_column, clean_time_column, clean_species_column,
      clean_source_column, clean_pdf_column, mapColumn]

/-- C3: every time-column cell that does not parse as a time of day,
blank cells and the concrete string "afternoon-ish" included, is mapped
by the time cleaner to the sentinel "unknown", and the cleaner is total:
it yields a defined value for every cell, so no input aborts the stage. -/
theorem C3_time_fallback :
    (∀ s : String, parseTimeChars (trimChars s.data) = none →
      cleanTimeCell (some s) = some "unknown") ∧
    cleanTimeCell (some "afternoon-ish") = some "unknown" ∧
    cleanTimeCell (some "") = some "unknown" ∧
    cleanTimeCell none = some "unknown" ∧
    (∀ c : Cell, (cleanTimeCell c).isSome = true) := by
  refine ⟨fun s h => by simp [cleanTimeCell, h], by decide, by decide, rfl, ?_⟩
  intro c
  cases c with
  | none => rfl
  | some s =>
      simp only [cleanTimeCell]
      cases hp : parseTimeChars (trimChars s.data) with
      | none => rfl
      | some p => cases p; rfl

/-- Witness for C3 at a concrete unparseable string. -/
theorem C3_time_fallback_witness :
    parseTimeChars (trimChars "Morning".data) = none ∧
    cleanTimeCell (some "Morning") = some "unknown" :=
  ⟨by decide, C3_time_fallback.1 "Morning" (by decide)⟩

/-- C4: the pipeline executes exactly the fixed sequence fetch, load,
rename columns, clean fatal, clean time, clean species, clean source,
clean PDF, save, in that order, each stage consuming precisely the table
produced by the previous stage, with no branching, retry, or parallel
execution: for every remote content and starting filesystem the run is
equal to the straight-line composition of the stages. -/
theorem C4_pipeline_order (remote : String → XFile) (fs0 : FS) :
    run_pipeline remote fs0 =
      (save_excel (download_excel remote sourceURL downloadDest fs0)
        (cleanStages (xfileToTable (remote sourceURL))) savePath,
       some (cleanStages (xfileToTable (remote sourceURL)))) := rfl

/-- C5: each of the five field cleaners rewrites the values of exactly
one column: the header is unchanged and, for every column name other
than the one the cleaner targets, that column reads identically in the
output table and in the input table. -/
theorem C5_frame_effect (t : Table) (name : String) :
    ((clean_fatal_column t).header = t.header ∧
      (name ≠ "Fatal" → getCol (clean_fatal_column t) name = getCol t name)) ∧
    ((clean_time_column t).header = t.header ∧
      (name ≠ "Time" → getCol (clean_time_column t) name = getCol t name)) ∧
    ((clean_species_column t).header = t.header ∧
      (name ≠ "Species" → getCol (clean_species_column t) name = getCol t name)) ∧
    ((clean_source_column t).header = t.header ∧
      (name ≠ "Source" → getCol (clean_source_column t) name = getCol t name)) ∧
    ((clean_pdf_column t).header = t.header ∧
      (name ≠ "PDF" → getCol (clean_pdf_column t) name = getCol t name)) :=
  ⟨⟨rfl, fun h => getCol_mapColumn_ne t "Fatal" cleanFatalCell name h⟩,
   ⟨rfl, fun h => getCol_mapColumn_ne t "Time" cleanTimeCell name h⟩,
   ⟨rfl, fun h => getCol_mapColumn_ne t "Species" cleanSpeciesCell name h⟩,
   ⟨rfl, fun h => getCol_mapColumn_ne t "Source" cleanSourceCell name h⟩,
   ⟨rfl, fun h => getCol_mapColumn_ne t "PDF" cleanPdfCell name h⟩⟩

/-- Witness for C5: on a concrete table, the Gender column is untouched
by each of the five cleaners. -/
theorem C5_frame_effect_witness :
    (getCol (clean_fatal_column sampleT) "Gender" = getCol sampleT "Gender") ∧
    (getCol (clean_time_column sampleT) "Gender" = getCol sampleT "Gender") ∧
    (getCol (clean_species_column sampleT) "Gender" = getCol sampleT "Gender") ∧
    (getCol (clean_source_column sampleT) "Gender" = getCol sampleT "Gender") ∧
    (getCol (clean_pdf_column sampleT) "Gender" = getCol sampleT "Gender") :=
  ⟨(C5_frame_effect sampleT "Gender").1.2 (by decide),
   (C5_frame_effect sampleT "Gender").2.1.2 (by decide),
   (C5_frame_effect sampleT "Gender").2.2.1.2 (by decide),
   (C5_frame_effect sampleT "Gender").2.2.2.1.2 (by decide),
   (C5_frame_effect sampleT "Gender").2.2.2.2.2 (by decide)⟩

/-- The rename lookup acts as a single conditional on the Sex header. -/
theorem renameHeader_eq (h : String) :
    renameHeader h = if h = "Sex" then "Gender" else h := by
  by_cases hh : h = "Sex"
  · subst hh; rfl
  · have hne : ("Sex" = h) = False := by
      simp [Ne.symm hh]
    simp [renameHeader, renameLookup, List.find?, hne, hh]

/-- No header is ever renamed to the original name Sex. -/
theorem renameHeader_ne_sex (h : String) : renameHeader h ≠ "Sex" := by
  rw [renameHeader_eq]
  by_cases hh : h = "Sex"
  · rw [if_pos hh]; decide
  · rw [if_neg hh]; exact hh

/-- C6: rename_columns maps headers through the fixed hard-coded lookup:
the header "Sex" is replaced by the canonical "Gender" and "Sex" no
longer appears; a header not present in the lookup passes through
unchanged; when the expected original column "Sex" is absent, its
canonical name does not appear either (unless it was already there), and
no validation error occurs since the renamer is total. -/
theorem C6_rename_lookup (t : Table) :
    ("Sex" ∈ t.header →
      "Gender" ∈ (rename_columns t).header ∧ "Sex" ∉ (rename_columns t).header) ∧
    (∀ h ∈ t.header, renameLookup.find? (fun p => p.1 = h) = none →
      h ∈ (rename_columns t).header) ∧
    ("Sex" ∉ t.header ∧ "Gender" ∉ t.header → "Gender" ∉ (rename_columns t).header) := by
  refine ⟨?_, ?_, ?_⟩
  · intro hs
    constructor
    · exact List.mem_map.mpr ⟨"Sex", hs, rfl⟩
    · intro hmem
      obtain ⟨x, _, hex⟩ := List.mem_map.mp hmem
      exact renameHeader_ne_sex x hex
  · intro h hmem hfind
    have hid : renameHeader h = h := by
      unfold renameHeader
      rw [hfind]
    exact List.mem_map.mpr ⟨h, hmem, hid⟩
  · rintro ⟨hs, hg⟩ hmem
    obtain ⟨x, hx, hex⟩ := List.mem_map.mp hmem
    rw [renameHeader_eq] at hex
    by_cases hxs : x = "Sex"
    · subst hxs
      exact hs hx
    · rw [if_neg hxs] at hex
      subst hex
      exact hg hx

/-- Witness for C6 on concrete headers. -/
theorem C6_rename_lookup_witness :
    ("Gender" ∈ (rename_columns sampleSexT).header ∧
      "Sex" ∉ (rename_columns sampleSexT).header) ∧
    ("Age" ∈ (rename_columns sampleSexT).header) ∧
    ("Gender" ∉ (rename_columns sampleNoSexT).header) :=
  ⟨(C6_rename_lookup sampleSexT).1 (by decide),
   (C6_rename_lookup sampleSexT).2.1 "Age" (by decide) (by decide),
   (C6_rename_lookup sampleNoSexT).2.2 ⟨by decide, by decide⟩⟩

/-- C7: saving a fully cleaned table with save_excel and reloading the
written file with load_excel yields a table with the same row count and
the same canonical column names as the table that was written. -/
theorem C7_save_load_roundtrip (t : Table) (fs : FS) :
    ∃ t2, load_excel (save_excel fs t savePath) savePath = some t2 ∧
      t2.rows.length = t.rows.length ∧ t2.header = t.header :=
  ⟨xfileToTable (tableToXFile t), rfl, rfl, rfl⟩

/-- C8: the fatality cleaner is deterministic: the output category of a
cell depends only on the string value of that cell, so two cells with
equal values, in any two tables at any two row positions, are cleaned
to equal categories. -/
theorem C8_fatal_deterministic (t1 t2 : Table) (i1 i2 : Nat)
    (h1 : t1.rect = true) (h2 : t2.rect = true)
    (h : getCell t1 i1 "Fatal" = getCell t2 i2 "Fatal") :
    getCell (clean_fatal_column t1) i1 "Fatal" =
      getCell (clean_fatal_column t2) i2 "Fatal" := by
  unfold clean_fatal_column
  rw [getCell_mapColumn_eq t1 "Fatal" cleanFatalCell i1 h1,
    getCell_mapColumn_eq t2 "Fatal" cleanFatalCell i2 h2, h]

/-- Witness for C8 on two concrete tables sharing a cell value. -/
theorem C8_fatal_deterministic_witness :
    sampleT.rect = true ∧ sampleT2.rect = true ∧
    getCell sampleT 0 "Fatal" = getCell sampleT2 1 "Fatal" ∧
    getCell (clean_fatal_column sampleT) 0 "Fatal" =
      getCell (clean_fatal_column sampleT2) 1 "Fatal" :=
  ⟨by decide, by decide, by decide,
   C8_fatal_deterministic sampleT sampleT2 0 1 (by decide) (by decide) (by decide)⟩

/-- C9: the writer's output path Cleaned_GSAF5.xlsx is distinct from the
fetcher's destination path GSAF5.xls, and after the whole pipeline runs
the file at the fetcher's destination still holds exactly the raw
downloaded spreadsheet content. -/
theorem C9_raw_file_preserved (remote : String → XFile) (fs0 : FS) :
    downloadDest ≠ savePath ∧
    fsRead (run_pipeline remote fs0).1 downloadDest = some (remote sourceURL) :=
  ⟨by decide, rfl⟩

/-- C10: the loader is invoked with exactly the path the fetcher writes
to, so the table entering the cleaning stages is the deserialization of
the file just downloaded, and the pipeline result is computed from it
alone. -/
theorem C10_loader_reads_download (remote : String → XFile) (fs0 : FS) :
    loadPath = downloadDest ∧
    load_excel (download_excel remote sourceURL downloadDest fs0) loadPath =
      some (xfileToTable (remote sourceURL)) ∧
    (run_pipeline remote fs0).2 = some (cleanStages (xfileToTable (remote sourceURL))) :=
  ⟨rfl, rfl, rfl⟩
